import Mathlib

/-!
Shallow embedding of the books REST API (Express + PostgreSQL, files
src/models/Book.js, src/routes/books.js, src/middleware/validation.js,
src/middleware/errorHandler.js, database.sql).

Modelling conventions:
- JavaScript object fields are three-valued (absent/undefined, null, value).
- The store is a list of rows plus the SERIAL id sequence; timestamps are
  abstract clock values (Nat) passed to each operation.
- DECIMAL(10,2) prices are modelled in hundredths as Int.
- Text ordering (ORDER BY on a text column) is codepoint-lexicographic.
- ILIKE is PostgreSQL pattern matching over lowercased codepoints.
-/

/-- One JavaScript object field: absent/undefined, explicit null, or a value. -/
inductive JField (α : Type) where
  | undef : JField α
  | null : JField α
  | val : α → JField α
deriving DecidableEq

/-- Row of the books table (schema from database.sql). The title and author
columns are NOT NULL; the other data columns are nullable. -/
structure Book where
  id : Nat
  title : String
  author : String
  isbn : Option String
  publication_year : Option Int
  genre : Option String
  pages : Option Int
  description : Option String
  price : Option Int
  in_stock : Option Bool
  created_at : Nat
  updated_at : Nat
deriving DecidableEq

/-- Request body for create/update: the nine mutable columns. -/
structure BookInput where
  title : JField String
  author : JField String
  isbn : JField String
  publication_year : JField Int
  genre : JField String
  pages : JField Int
  description : JField String
  price : JField Int
  in_stock : JField Bool
deriving DecidableEq

/-- A body with none of the nine recognized fields present. -/
def emptyInput : BookInput :=
  ⟨.undef, .undef, .undef, .undef, .undef, .undef, .undef, .undef, .undef⟩

/-- Database state: the books table plus the SERIAL id sequence. -/
structure Db where
  rows : List Book
  seq : Nat
deriving DecidableEq

/-- Lowercased codepoints of a string (ILIKE compares case-insensitively). -/
def lcs (s : String) : List Char := s.data.map Char.toLower

/-- Does some suffix of the text (the text itself included, the empty
suffix last) satisfy the continuation? Used for the percent wildcard. -/
def sufAny (f : List Char → Bool) : List Char → Bool
  | [] => f []
  | d :: s2 => f (d :: s2) || sufAny f s2

/-- Match one literal character, then continue. -/
def litStep (g : List Char → Bool) (e : Char) : List Char → Bool
  | [] => false
  | d :: s2 => (e == d) && g s2

/-- PostgreSQL LIKE pattern matching over codepoint lists: percent matches
any sequence (the rest of the pattern is tried on every suffix of the
text), underscore matches any single character, backslash escapes the
following pattern character (a pattern ending in a bare backslash is
invalid in PostgreSQL and matches nothing here). -/
def likeMatch : List Char → List Char → Bool
  | [], s => s.isEmpty
  | c :: p, s =>
    if c = '%' then sufAny (fun m => likeMatch p m) s
    else if c = '_' then
      match s with
      | [] => false
      | _ :: s2 => likeMatch p s2
    else if c = '\\' then
      match p with
      | [] => false
      | e :: p2 => litStep (fun m => likeMatch p2 m) e s
    else litStep (fun m => likeMatch p m) c s

/-- ILIKE: case-insensitive LIKE (both sides lowercased). -/
def ilike (pat s : String) : Bool := likeMatch (lcs pat) (lcs s)

/-- The percent-wrapped pattern the repository builds for substring-style
filters and search. -/
def pctWrap (t : String) : String := "%" ++ t ++ "%"

/-- Codepoint-lexicographic order on character lists, as a boolean relation. -/
def charsLE : List Char → List Char → Bool
  | [], _ => true
  | _ :: _, [] => false
  | c :: cs, d :: ds => decide (c < d) || (decide (c = d) && charsLE cs ds)

/-- Text column comparison for ORDER BY. -/
def strLE (a b : String) : Bool := charsLE a.data b.data

/-- Comparison on a nullable column: SQL places NULLs last in ascending
order, so none is greatest. -/
def optLE {α : Type} (le : α → α → Bool) : Option α → Option α → Bool
  | _, none => true
  | none, some _ => false
  | some a, some b => le a b

def intLE (a b : Int) : Bool := decide (a ≤ b)

def natLE (a b : Nat) : Bool := decide (a ≤ b)

/-- Ascending comparator for a sort column (the result of safeSortBy; any
unrecognized name falls through to created_at, matching the repository's
default). -/
def colLE (c : String) (a b : Book) : Bool :=
  if c = "id" then natLE a.id b.id
  else if c = "title" then strLE a.title b.title
  else if c = "author" then strLE a.author b.author
  else if c = "publication_year" then optLE intLE a.publication_year b.publication_year
  else if c = "price" then optLE intLE a.price b.price
  else natLE a.created_at b.created_at

/-- Direction: DESC is the reversed comparator (for nullable columns this
puts NULLs first, as PostgreSQL does for descending order). -/
def rowLE (c ord : String) (a b : Book) : Bool :=
  if ord = "ASC" then colLE c a b else colLE c b a

/-- Insertion into a sorted list; together with isort this models the
store's ORDER BY (any stable comparison sort denotes the same contract:
a sorted permutation of the filtered rows). -/
def insertLE {α : Type} (le : α → α → Bool) (a : α) : List α → List α
  | [] => [a]
  | b :: l => if le a b then a :: b :: l else b :: insertLE le a l

def isort {α : Type} (le : α → α → Bool) : List α → List α
  | [] => []
  | a :: l => insertLE le a (isort le l)

/-- ORDER BY column/direction over a list of rows. -/
def sortRows (c ord : String) (l : List Book) : List Book := isort (rowLE c ord) l

theorem perm_insertLE {α : Type} (le : α → α → Bool) (a : α) (l : List α) :
    List.Perm (insertLE le a l) (a :: l) := by
  induction l with
  | nil => simp [insertLE]
  | cons b l ih =>
    simp only [insertLE]
    split
    · exact List.Perm.refl _
    · exact (List.Perm.cons b ih).trans (List.Perm.swap a b l)

theorem perm_isort {α : Type} (le : α → α → Bool) (l : List α) :
    List.Perm (isort le l) l := by
  induction l with
  | nil => simp [isort]
  | cons a l ih => exact (perm_insertLE le a (isort le l)).trans (List.Perm.cons a ih)

theorem mem_insertLE {α : Type} (le : α → α → Bool) (a x : α) (l : List α) :
    x ∈ insertLE le a l ↔ x = a ∨ x ∈ l := by
  have h : x ∈ insertLE le a l ↔ x ∈ a :: l := (perm_insertLE le a l).mem_iff
  simpa using h

theorem pairwise_insertLE {α : Type} (le : α → α → Bool)
    (htot : ∀ a b, le a b = true ∨ le b a = true)
    (htrans : ∀ a b c, le a b = true → le b c = true → le a c = true)
    (a : α) (l : List α) (h : l.Pairwise (fun x y => le x y = true)) :
    (insertLE le a l).Pairwise (fun x y => le x y = true) := by
  induction l with
  | nil => simp [insertLE]
  | cons b l ih =>
    rcases List.pairwise_cons.mp h with ⟨hb, hl⟩
    simp only [insertLE]
    split
    case isTrue hab =>
      refine List.pairwise_cons.mpr ⟨?_, h⟩
      intro x hx
      rcases List.mem_cons.mp hx with rfl | hx
      · exact hab
      · exact htrans a b x hab (hb x hx)
    case isFalse hab =>
      refine List.pairwise_cons.mpr ⟨?_, ih hl⟩
      intro x hx
      rcases (mem_insertLE le a x l).mp hx with hxa | hx
      · rw [hxa]
        rcases htot a b with h1 | h1
        · exact absurd h1 hab
        · exact h1
      · exact hb x hx

theorem pairwise_isort {α : Type} (le : α → α → Bool)
    (htot : ∀ a b, le a b = true ∨ le b a = true)
    (htrans : ∀ a b c, le a b = true → le b c = true → le a c = true)
    (l : List α) : (isort le l).Pairwise (fun x y => le x y = true) := by
  induction l with
  | nil => simp [isort]
  | cons a l ih => exact pairwise_insertLE le htot htrans a (isort le l) ih

theorem charsLE_total : ∀ a b : List Char, charsLE a b = true ∨ charsLE b a = true := by
  intro a
  induction a with
  | nil => intro b; left; rfl
  | cons c cs ih =>
    intro b
    cases b with
    | nil => right; rfl
    | cons d ds =>
      simp only [charsLE, Bool.or_eq_true, Bool.and_eq_true, decide_eq_true_eq]
      rcases lt_trichotomy c d with h | h | h
      · exact Or.inl (Or.inl h)
      · rcases ih ds with h2 | h2
        · exact Or.inl (Or.inr ⟨h, h2⟩)
        · exact Or.inr (Or.inr ⟨h.symm, h2⟩)
      · exact Or.inr (Or.inl h)

theorem charsLE_trans :
    ∀ a b c : List Char, charsLE a b = true → charsLE b c = true → charsLE a c = true := by
  intro a
  induction a with
  | nil => intro b c _ _; rfl
  | cons x xs ih =>
    intro b c hab hbc
    cases b with
    | nil => simp [charsLE] at hab
    | cons y ys =>
      cases c with
      | nil => simp [charsLE] at hbc
      | cons z zs =>
        simp only [charsLE, Bool.or_eq_true, Bool.and_eq_true, decide_eq_true_eq] at hab hbc ⊢
        rcases hab with hxy | ⟨hxy, hrest⟩
        · rcases hbc with hyz | ⟨hyz, _⟩
          · exact Or.inl (lt_trans hxy hyz)
          · rw [← hyz]; exact Or.inl hxy
        · rcases hbc with hyz | ⟨hyz, hrest2⟩
          · rw [hxy]; exact Or.inl hyz
          · exact Or.inr ⟨hxy.trans hyz, ih ys zs hrest hrest2⟩

theorem strLE_total : ∀ a b : String, strLE a b = true ∨ strLE b a = true :=
  fun a b => charsLE_total a.data b.data

theorem strLE_trans :
    ∀ a b c : String, strLE a b = true → strLE b c = true → strLE a c = true :=
  fun a b c => charsLE_trans a.data b.data c.data

theorem optLE_total {α : Type} (le : α → α → Bool)
    (h : ∀ a b, le a b = true ∨ le b a = true) :
    ∀ a b : Option α, optLE le a b = true ∨ optLE le b a = true := by
  intro a b
  cases a with
  | none => cases b with
    | none => left; rfl
    | some vb => right; rfl
  | some va => cases b with
    | none => left; rfl
    | some vb => exact h va vb

theorem optLE_trans {α : Type} (le : α → α → Bool)
    (h : ∀ a b c, le a b = true → le b c = true → le a c = true) :
    ∀ a b c : Option α, optLE le a b = true → optLE le b c = true → optLE le a c = true := by
  intro a b c hab hbc
  cases c with
  | none => cases a <;> rfl
  | some vc =>
    cases b with
    | none => simp [optLE] at hbc
    | some vb =>
      cases a with
      | none => simp [optLE] at hab
      | some va => exact h va vb vc hab hbc

theorem intLE_total : ∀ a b : Int, intLE a b = true ∨ intLE b a = true := by
  intro a b
  simp only [intLE, decide_eq_true_eq]
  exact le_total a b

theorem intLE_trans :
    ∀ a b c : Int, intLE a b = true → intLE b c = true → intLE a c = true := by
  intro a b c hab hbc
  simp only [intLE, decide_eq_true_eq] at hab hbc ⊢
  exact hab.trans hbc

theorem natLE_total : ∀ a b : Nat, natLE a b = true ∨ natLE b a = true := by
  intro a b
  simp only [natLE, decide_eq_true_eq]
  exact Nat.le_total a b

theorem natLE_trans :
    ∀ a b c : Nat, natLE a b = true → natLE b c = true → natLE a c = true := by
  intro a b c hab hbc
  simp only [natLE, decide_eq_true_eq] at hab hbc ⊢
  exact hab.trans hbc

theorem colLE_total (c : String) : ∀ a b : Book, colLE c a b = true ∨ colLE c b a = true := by
  intro a b
  simp only [colLE]
  split_ifs
  · exact natLE_total a.id b.id
  · exact strLE_total a.title b.title
  · exact strLE_total a.author b.author
  · exact optLE_total intLE intLE_total a.publication_year b.publication_year
  · exact optLE_total intLE intLE_total a.price b.price
  · exact natLE_total a.created_at b.created_at

theorem colLE_trans (c : String) :
    ∀ a b d : Book, colLE c a b = true → colLE c b d = true → colLE c a d = true := by
  intro a b d hab hbd
  simp only [colLE] at hab hbd ⊢
  split_ifs at hab hbd ⊢
  · exact natLE_trans _ _ _ hab hbd
  · exact strLE_trans _ _ _ hab hbd
  · exact strLE_trans _ _ _ hab hbd
  · exact optLE_trans intLE intLE_trans _ _ _ hab hbd
  · exact optLE_trans intLE intLE_trans _ _ _ hab hbd
  · exact natLE_trans _ _ _ hab hbd

theorem rowLE_total (c ord : String) :
    ∀ a b : Book, rowLE c ord a b = true ∨ rowLE c ord b a = true := by
  intro a b
  simp only [rowLE]
  split_ifs
  · exact colLE_total c a b
  · exact colLE_total c b a

theorem rowLE_trans (c ord : String) :
    ∀ a b d : Book, rowLE c ord a b = true → rowLE c ord b d = true → rowLE c ord a d = true := by
  intro a b d hab hbd
  simp only [rowLE] at hab hbd ⊢
  split_ifs at hab hbd ⊢
  · exact colLE_trans c a b d hab hbd
  · exact colLE_trans c d b a hbd hab

/-- SELECT * FROM books WHERE id = usd1 (result.rows[0] or null). -/
def findById (db : Db) (id : Nat) : Option Book :=
  db.rows.find? (fun b => b.id == id)

/-- SELECT * FROM books WHERE isbn = usd1 (result.rows[0] or null). -/
def findByIsbn (db : Db) (isbn : String) : Option Book :=
  db.rows.find? (fun b => b.isbn == some isbn)

/-- A positional SQL parameter value. -/
inductive SqlVal where
  | nullV : SqlVal
  | s : String → SqlVal
  | i : Int → SqlVal
  | b : Bool → SqlVal
deriving DecidableEq

/-- One SET-clause item for a column: skipped exactly when the input field
is undefined (the presence test in Book.update is value !== undefined);
an explicit null is passed through as SQL NULL. -/
def entry {α : Type} (name : String) (f : JField α) (inj : α → SqlVal) :
    List (String × SqlVal) :=
  match f with
  | .undef => []
  | .null => [(name, .nullV)]
  | .val a => [(name, inj a)]

/-- The nine mutable columns, in the order Book.update iterates them. -/
def mutableFields : List String :=
  ["title", "author", "isbn", "publication_year", "genre", "pages",
   "description", "price", "in_stock"]

/-- The SET clause built by Book.update: the for-loop over the nine mutable
columns, keeping exactly the fields present in the request body. -/
def setClause (inp : BookInput) : List (String × SqlVal) :=
  entry "title" inp.title SqlVal.s ++
  entry "author" inp.author SqlVal.s ++
  entry "isbn" inp.isbn SqlVal.s ++
  entry "publication_year" inp.publication_year SqlVal.i ++
  entry "genre" inp.genre SqlVal.s ++
  entry "pages" inp.pages SqlVal.i ++
  entry "description" inp.description SqlVal.s ++
  entry "price" inp.price SqlVal.i ++
  entry "in_stock" inp.in_stock SqlVal.b

/-- New value of a nullable column under UPDATE: an absent key keeps the
old value, null clears the column, a present value overwrites it. -/
def jApply {α : Type} (old : Option α) : JField α → Option α
  | .undef => old
  | .null => none
  | .val a => some a

/-- The row computed by UPDATE ... RETURNING *: only SET columns change,
and the BEFORE UPDATE trigger from database.sql refreshes updated_at. -/
def applyUpd (b : Book) (inp : BookInput) (now : Nat) : Book :=
  { id := b.id
    title := match inp.title with | .val t => t | _ => b.title
    author := match inp.author with | .val a => a | _ => b.author
    isbn := jApply b.isbn inp.isbn
    publication_year := jApply b.publication_year inp.publication_year
    genre := jApply b.genre inp.genre
    pages := jApply b.pages inp.pages
    description := jApply b.description inp.description
    price := jApply b.price inp.price
    in_stock := jApply b.in_stock inp.in_stock
    created_at := b.created_at
    updated_at := now }

/-- Executing the UPDATE against the store. The schema (database.sql) can
still reject the statement: NOT NULL on title/author (SQLSTATE 23502) and
the unique constraint on isbn (SQLSTATE 23505, the safety net behind the
handler's pre-check). -/
def runUpdate (db : Db) (b : Book) (inp : BookInput) (now : Nat) : Except String Book :=
  if inp.title = JField.null ∨ inp.author = JField.null then .error "23502"
  else
    let b2 := applyUpd b inp now
    if db.rows.any (fun r => (r.id != b.id) && r.isbn.isSome && (r.isbn == b2.isbn)) then
      .error "23505"
    else .ok b2

/-- Book.update: load the row (null when absent), build the SET clause from
the present fields, return the loaded row unchanged when the clause is
empty, otherwise run UPDATE ... WHERE id = usdN RETURNING *. -/
def dbUpdate (db : Db) (now : Nat) (id : Nat) (inp : BookInput) :
    Except String (Option Book) × Db :=
  match findById db id with
  | none => (.ok none, db)
  | some existing =>
    if setClause inp = [] then (.ok (some existing), db)
    else
      match runUpdate db existing inp now with
      | .error code => (.error code, db)
      | .ok b2 => (.ok (some b2), ⟨db.rows.map (fun r => if r.id = id then b2 else r), db.seq⟩)

/-- The VALUES tuple of Book.create: both an undefined and a null field
insert SQL NULL (the driver sends undefined as null). -/
def jIns {α : Type} : JField α → Option α
  | .val a => some a
  | _ => none

/-- The row computed by INSERT ... RETURNING *: the id comes from the
SERIAL sequence and both timestamps from the server clock; in_stock
defaults to true only when undefined (the destructuring default). -/
def insertRow (db : Db) (now : Nat) (t a : String) (inp : BookInput) : Book :=
  { id := db.seq
    title := t
    author := a
    isbn := jIns inp.isbn
    publication_year := jIns inp.publication_year
    genre := jIns inp.genre
    pages := jIns inp.pages
    description := jIns inp.description
    price := jIns inp.price
    in_stock := match inp.in_stock with
      | .undef => some true
      | .null => none
      | .val v => some v
    created_at := now
    updated_at := now }

/-- Book.create: INSERT over the nine mutable columns; the schema rejects
a missing or null title/author (23502) or a duplicate isbn (23505). -/
def bookCreate (db : Db) (now : Nat) (inp : BookInput) : Except String Book × Db :=
  match inp.title, inp.author with
  | .val t, .val a =>
    let b := insertRow db now t a inp
    if db.rows.any (fun r => r.isbn.isSome && (r.isbn == b.isbn)) then (.error "23505", db)
    else (.ok b, ⟨db.rows ++ [b], db.seq + 1⟩)
  | _, _ => (.error "23502", db)

/-- Outcome of a mutating handler, before serialization. -/
inductive MutResult where
  | created : Book → MutResult
  | updated : Option Book → MutResult
  | notFound : Nat → MutResult
  | conflict : String → MutResult
  | dbError : String → MutResult
deriving DecidableEq

/-- JavaScript truthiness of an optional string field: undefined, null and
the empty string are falsy. -/
def jTruthyStr : JField String → Option String
  | .val s => if s = "" then none else some s
  | _ => none

/-- Shared tail of the create handler: run Book.create, 201 on success,
otherwise the store error propagates to the error middleware. -/
def createStep (db : Db) (now : Nat) (inp : BookInput) : MutResult × Db :=
  match bookCreate db now inp with
  | (.ok b, db2) => (.created b, db2)
  | (.error c, db2) => (.dbError c, db2)

/-- POST /api/books handler: if the body's isbn is truthy and some book
already holds it, 409 before any insert; otherwise Book.create. -/
def postBooks (db : Db) (now : Nat) (inp : BookInput) : MutResult × Db :=
  match jTruthyStr inp.isbn with
  | some s =>
    match findByIsbn db s with
    | some _ => (.conflict s, db)
    | none => createStep db now inp
  | none => createStep db now inp

/-- Shared tail of the update handlers: run Book.update and answer 200. -/
def updStep (db : Db) (now : Nat) (id : Nat) (inp : BookInput) : MutResult × Db :=
  match dbUpdate db now id inp with
  | (.ok r, db2) => (.updated r, db2)
  | (.error c, db2) => (.dbError c, db2)

/-- PUT /api/books/:id handler: 404 when the row is absent; 409 when the
body carries a truthy isbn different from the row's own and some book
already holds it; otherwise Book.update. -/
def putBooks (db : Db) (now : Nat) (id : Nat) (inp : BookInput) : MutResult × Db :=
  match findById db id with
  | none => (.notFound id, db)
  | some book =>
    match jTruthyStr inp.isbn with
    | some s =>
      if some s ≠ book.isbn then
        match findByIsbn db s with
        | some _ => (.conflict s, db)
        | none => updStep db now id inp
      else updStep db now id inp
    | none => updStep db now id inp

/-- PATCH /api/books/:id handler: the source duplicates the PUT handler
verbatim, so the transcription is the same, line by line. -/
def patchBooks (db : Db) (now : Nat) (id : Nat) (inp : BookInput) : MutResult × Db :=
  match findById db id with
  | none => (.notFound id, db)
  | some book =>
    match jTruthyStr inp.isbn with
    | some s =>
      if some s ≠ book.isbn then
        match findByIsbn db s with
        | some _ => (.conflict s, db)
        | none => updStep db now id inp
      else updStep db now id inp
    | none => updStep db now id inp

/-- An error object reaching the error middleware: a PostgreSQL error
(code, message, optional detail), an ApiError thrown by a handler, or any
other exception. -/
inductive AppError where
  | pg : String → String → Option String → AppError
  | api : Nat → String → Option String → Nat → AppError
  | other : String → AppError
deriving DecidableEq

/-- The serialized error response: always success:false with a timestamp. -/
structure ErrResponse where
  status : Nat
  success : Bool
  error : String
  details : Option String
  timestamp : Nat
deriving DecidableEq

/-- The errorHandler middleware: the PostgreSQL code switch, then the
ApiError branch, then the generic 500 (whose message is masked in
production). -/
def errorHandler (e : AppError) (production : Bool) (now : Nat) : ErrResponse :=
  match e with
  | .pg code msg detail =>
    if code = "23505" then
      ⟨409, false, "Запись с такими данными уже существует", detail, now⟩
    else if code = "23503" then
      ⟨400, false, "Нарушение связи с другой таблицей", detail, now⟩
    else if code = "22P02" then
      ⟨400, false, "Неверный формат данных", none, now⟩
    else if code = "ECONNREFUSED" then
      ⟨503, false, "База данных недоступна", none, now⟩
    else
      ⟨500, false, if production then "Внутренняя ошибка сервера" else msg, none, now⟩
  | .api status msg details ts => ⟨status, false, msg, details, ts⟩
  | .other msg =>
    ⟨500, false, if production then "Внутренняя ошибка сервера" else msg, none, now⟩

/-- HTTP status an uncaught store error ends up with, via errorHandler. -/
def pgStatus (code : String) : Nat :=
  (errorHandler (.pg code "" none) false 0).status

/-- HTTP status of a mutating handler outcome. -/
def MutResult.status : MutResult → Nat
  | .created _ => 201
  | .updated _ => 200
  | .notFound _ => 404
  | .conflict _ => 409
  | .dbError c => pgStatus c

/-- Options object built by the GET /api/books handler for Book.findAll. -/
structure ListOptions where
  page : Nat
  limit : Nat
  sortBy : String
  sortOrder : String
  genre : Option String
  author : Option String
  inStock : Option Bool
deriving DecidableEq

/-- JavaScript truthiness of an optional query string (undefined and the
empty string are falsy, so an empty filter value skips the condition). -/
def optTruthy : Option String → Option String
  | some s => if s = "" then none else some s
  | none => none

/-- The WHERE predicate of Book.findAll: genre and author as
case-insensitive substring patterns (NULL columns never match), inStock
as an exact boolean match (a NULL in_stock never matches). -/
def listPred (o : ListOptions) (b : Book) : Bool :=
  (match optTruthy o.genre with
   | some g =>
     match b.genre with
     | some t => ilike (pctWrap g) t
     | none => false
   | none => true) &&
  (match optTruthy o.author with
   | some a => ilike (pctWrap a) b.author
   | none => true) &&
  (match o.inStock with
   | some v => b.in_stock == some v
   | none => true)

/-- The whitelist of sortable columns in Book.findAll (the same list the
validation layer checks). -/
def allowedSortFields : List String :=
  ["id", "title", "author", "publication_year", "price", "created_at"]

/-- Repository-side sort column selection: an unlisted value is replaced
by created_at. -/
def safeSortBy (s : String) : String :=
  if s ∈ allowedSortFields then s else "created_at"

/-- ASCII uppercase, for the sortOrder normalization. -/
def upChar (c : Char) : Char :=
  if 'a' ≤ c ∧ c ≤ 'z' then Char.ofNat (c.toNat - 32) else c

def asciiUpper (s : String) : String := ⟨s.data.map upChar⟩

/-- Repository-side sort direction: ASC only for (case-insensitive) "asc",
anything else becomes DESC. -/
def safeSortOrder (s : String) : String :=
  if asciiUpper s = "ASC" then "ASC" else "DESC"

/-- Math.ceil(a / b) on whole counts, for b at least 1. -/
def ceilNat (a b : Nat) : Nat := (a + b - 1) / b

/-- The pagination envelope of a list response. -/
structure Pagination where
  currentPage : Nat
  totalPages : Nat
  totalItems : Nat
  itemsPerPage : Nat
deriving DecidableEq

structure ListResult where
  data : List Book
  pagination : Pagination
deriving DecidableEq

/-- Book.findAll: one filtered, sorted, offset/limited page of rows plus
the pagination envelope; the count query reuses exactly the same WHERE
predicate with the LIMIT/OFFSET parameters sliced off. -/
def findAll (db : Db) (o : ListOptions) : ListResult :=
  let offset := (o.page - 1) * o.limit
  let filtered := db.rows.filter (listPred o)
  let sorted := sortRows (safeSortBy o.sortBy) (safeSortOrder o.sortOrder) filtered
  let total := filtered.length
  { data := (sorted.drop offset).take o.limit
    pagination :=
      { currentPage := o.page
        totalPages := ceilNat total o.limit
        totalItems := total
        itemsPerPage := o.limit } }

/-- ILIKE on a nullable column: a NULL column never matches. -/
def optIlike (pat : String) : Option String → Bool
  | some d => ilike pat d
  | none => false

/-- The WHERE predicate of Book.search: title, author or description
matches the percent-wrapped term case-insensitively. -/
def searchMatch (t : String) (b : Book) : Bool :=
  ilike (pctWrap t) b.title || ilike (pctWrap t) b.author ||
    optIlike (pctWrap t) b.description

/-- Book.search: matching rows ordered by title ascending. -/
def searchBooks (db : Db) (t : String) : List Book :=
  sortRows "title" "ASC" (db.rows.filter (searchMatch t))

/-- Digit-string value (empty or non-digit lists rejected). -/
def digitsVal (cs : List Char) : Option Nat :=
  if cs ≠ [] ∧ cs.all (fun c => c.isDigit) then
    some (cs.foldl (fun n c => n * 10 + (c.toNat - 48)) 0)
  else none

/-- validator.js isInt with default options: an optional sign followed by
one or more digits (leading zeroes allowed). -/
def intStr (s : String) : Option Int :=
  match s.data with
  | '-' :: cs => (digitsVal cs).map (fun n => -(n : Int))
  | '+' :: cs => (digitsVal cs).map (fun n => (n : Int))
  | cs => (digitsVal cs).map (fun n => (n : Int))

/-- validator.js isBoolean with default options accepts exactly these four
strings. -/
def isBooleanStr (s : String) : Bool :=
  (s == "true") || (s == "false") || (s == "1") || (s == "0")

/-- Integer range rule used by the page and limit validators. -/
def intInRange (s : String) (lo : Int) (hi : Option Int) : Bool :=
  match intStr s with
  | some n =>
    decide (lo ≤ n) && (match hi with | some h => decide (n ≤ h) | none => true)
  | none => false

/-- Raw query string of GET /api/books (absent or string-valued fields). -/
structure RawListQuery where
  page : Option String
  limit : Option String
  sortBy : Option String
  sortOrder : Option String
  genre : Option String
  author : Option String
  inStock : Option String
deriving DecidableEq

/-- An optional() rule: absent fields are skipped, present ones checked. -/
def optRule (v : Option String) (ok : String → Bool) (field : String) : List String :=
  match v with
  | none => []
  | some s => if ok s then [] else [field]

/-- listBooksValidation: the failed-field list collected over all rules. -/
def listErrors (q : RawListQuery) : List String :=
  optRule q.page (fun s => intInRange s 1 none) "page" ++
  optRule q.limit (fun s => intInRange s 1 (some 100)) "limit" ++
  optRule q.sortBy (fun s => decide (s ∈ allowedSortFields)) "sortBy" ++
  optRule q.sortOrder (fun s => decide (s ∈ (["ASC", "DESC", "asc", "desc"] : List String))) "sortOrder" ++
  optRule q.inStock isBooleanStr "inStock"

/-- parseInt(v) || dflt as used by the list handler. Validation guarantees
a positive integer string whenever this runs, and on those inputs the
model agrees with the JavaScript value. -/
def parsePos (v : Option String) (dflt : Nat) : Nat :=
  match v with
  | none => dflt
  | some s =>
    match intStr s with
    | some n => if n ≤ 0 then dflt else n.toNat
    | none => dflt

inductive ListResp where
  | ok : ListResult → ListResp
  | invalid : List String → ListResp
deriving DecidableEq

def ListResp.status : ListResp → Nat
  | .ok _ => 200
  | .invalid _ => 400

/-- GET /api/books: listBooksValidation answers 400 listing the failed
fields; otherwise the handler builds the findAll options (string defaults
via ||, inStock coerced by strict equality with "true") and always
answers 200. -/
def listBooks (db : Db) (q : RawListQuery) : ListResp :=
  match listErrors q with
  | [] =>
    .ok (findAll db
      { page := parsePos q.page 1
        limit := parsePos q.limit 10
        sortBy := match optTruthy q.sortBy with | some s => s | none => "created_at"
        sortOrder := match optTruthy q.sortOrder with | some s => s | none => "DESC"
        genre := q.genre
        author := q.author
        inStock := q.inStock.map (fun s => s == "true") })
  | es => .invalid es

/-- The whitespace class trimmed from the search term. -/
def isWs (c : Char) : Bool := c == ' ' || c == '\t' || c == '\n' || c == '\r'

/-- The trim() sanitizer applied to the q parameter. -/
def jsTrim (s : String) : String :=
  ⟨((s.data.dropWhile isWs).reverse.dropWhile isWs).reverse⟩

inductive SearchResp where
  | ok : Nat → List Book → SearchResp
  | invalid : List String → SearchResp
deriving DecidableEq

def SearchResp.status : SearchResp → Nat
  | .ok _ _ => 200
  | .invalid _ => 400

/-- searchValidation: q is trimmed, must be non-empty and 2..100 long
(both rules are checked and both can report the field). -/
def searchErrors (q : Option String) : List String :=
  let t := jsTrim (match q with | some s => s | none => "")
  (if t = "" then ["q"] else []) ++
  (if 2 ≤ t.length ∧ t.length ≤ 100 then [] else ["q"])

/-- GET /api/books/search: validation then Book.search, answering the
match count and rows (zero matches is a normal 200). -/
def searchEP (db : Db) (q : Option String) : SearchResp :=
  match searchErrors q with
  | [] =>
    let t := jsTrim (match q with | some s => s | none => "")
    .ok (searchBooks db t).length (searchBooks db t)
  | es => .invalid es

/-- Substring containment: some suffix of s starts with t. -/
def isSubChars (t s : List Char) : Bool :=
  sufAny (fun m => t.isPrefixOf m) s

/-- Modelled from the spec for comparison in C4: the specification words
say search matches are case-insensitive substring containment of the term
in a column. -/
def containsCI (t s : String) : Bool := isSubChars (lcs t) (lcs s)

/-- Containment on a nullable column (spec side of C4). -/
def optContains (t : String) : Option String → Bool
  | some d => containsCI t d
  | none => false

/-- Modelled from the spec for comparison in C4: a book matches a term
when its title, author or description contains it case-insensitively. -/
def specSearchMatch (t : String) (b : Book) : Bool :=
  containsCI t b.title || containsCI t b.author || optContains t b.description

/-- A term is wildcard-free when its lowercased codepoints contain no LIKE
metacharacter (percent, underscore, backslash). -/
def wildFree (p : List Char) : Bool :=
  p.all fun c => !(c == '%') && !(c == '_') && !(c == '\\')

theorem ceilNat_ge (t l : Nat) (hl : 0 < l) : t ≤ ceilNat t l * l := by
  unfold ceilNat
  have hdm := Nat.div_add_mod' (t + l - 1) l
  have hmod := Nat.mod_lt (t + l - 1) hl
  omega

theorem ceilNat_lt (t l : Nat) (hl : 0 < l) : ceilNat t l * l < t + l := by
  unfold ceilNat
  have h1 : (t + l - 1) / l * l ≤ t + l - 1 := Nat.div_mul_le_self _ _
  omega

theorem put_eq_patch_aux (db : Db) (now id : Nat) (inp : BookInput) :
    putBooks db now id inp = patchBooks db now id inp := by
  cases hf : findById db id with
  | none => simp [putBooks, patchBooks, hf]
  | some book =>
    cases ht : jTruthyStr inp.isbn with
    | none => simp [putBooks, patchBooks, hf, ht]
    | some s => simp [putBooks, patchBooks, hf, ht]

theorem entry_name {α : Type} {n : String} {v : SqlVal} (m : String) (f : JField α)
    (inj : α → SqlVal) (h : (n, v) ∈ entry m f inj) : n = m := by
  cases f with
  | undef => simp [entry] at h
  | null => simp [entry] at h; exact h.1
  | val a => simp [entry] at h; exact h.1

theorem mem_entry_iff {α : Type} (m : String) (v : SqlVal) (n : String) (f : JField α)
    (inj : α → SqlVal) :
    (m, v) ∈ entry n f inj ↔
      (m = n ∧ ((f = .null ∧ v = .nullV) ∨ ∃ a, f = .val a ∧ v = inj a)) := by
  cases f <;> simp [entry]

theorem setClause_names (inp : BookInput) (n : String) (v : SqlVal)
    (h : (n, v) ∈ setClause inp) : n ∈ mutableFields := by
  simp only [setClause, List.mem_append, mem_entry_iff] at h
  rcases h with (((((((⟨rfl, -⟩ | ⟨rfl, -⟩) | ⟨rfl, -⟩) | ⟨rfl, -⟩) | ⟨rfl, -⟩) | ⟨rfl, -⟩)
    | ⟨rfl, -⟩) | ⟨rfl, -⟩) | ⟨rfl, -⟩ <;> decide

theorem likeMatch_nil (s : List Char) : likeMatch [] s = s.isEmpty := by
  cases s <;> rfl

theorem likeMatch_pct (p s : List Char) :
    likeMatch ('%' :: p) s = sufAny (fun m => likeMatch p m) s := by
  cases p <;> cases s <;> simp [likeMatch]

theorem likeMatch_lit_eq (c : Char) (p s : List Char)
    (h1 : ¬c = '%') (h2 : ¬c = '_') (h3 : ¬c = '\\') :
    likeMatch (c :: p) s = litStep (fun m => likeMatch p m) c s := by
  cases p <;> cases s <;> simp [likeMatch, h1, h2, h3]

theorem sufAny_likeMatch_nil (s : List Char) :
    sufAny (fun m => likeMatch [] m) s = true := by
  induction s with
  | nil => rfl
  | cons d s2 ih => simp [sufAny, ih]

theorem likeMatch_lit (p : List Char) (hw : wildFree p = true) :
    ∀ s : List Char, likeMatch (p ++ ['%']) s = p.isPrefixOf s := by
  induction p with
  | nil =>
    intro s
    have hpre : ([] : List Char).isPrefixOf s = true := by cases s <;> rfl
    rw [List.nil_append, hpre, likeMatch_pct, sufAny_likeMatch_nil]
  | cons c p ih =>
    simp only [wildFree, List.all_cons, Bool.and_eq_true, Bool.not_eq_true'] at hw
    obtain ⟨⟨⟨hc1, hc2⟩, hc3⟩, hp⟩ := hw
    have hn1 : ¬c = '%' := by simpa using hc1
    have hn2 : ¬c = '_' := by simpa using hc2
    have hn3 : ¬c = '\\' := by simpa using hc3
    have ih2 := ih (by simpa [wildFree] using hp)
    intro s
    rw [List.cons_append, likeMatch_lit_eq c (p ++ ['%']) s hn1 hn2 hn3]
    cases s with
    | nil => rfl
    | cons d s2 =>
      show (c == d && likeMatch (p ++ ['%']) s2) = (c :: p).isPrefixOf (d :: s2)
      rw [ih2 s2]
      rfl

theorem lcs_pctWrap (t : String) : lcs (pctWrap t) = '%' :: (lcs t ++ ['%']) := by
  have h1 : ("%" : String).data = ['%'] := rfl
  have h2 : Char.toLower '%' = '%' := by decide
  unfold lcs pctWrap
  rw [String.data_append, String.data_append, h1, List.map_append, List.map_append]
  simp [h2]

theorem ilike_pctWrap_eq (t : String) (hw : wildFree (lcs t) = true) (x : String) :
    ilike (pctWrap t) x = containsCI t x := by
  unfold ilike containsCI isSubChars
  rw [lcs_pctWrap, likeMatch_pct]
  have h : (fun m => likeMatch (lcs t ++ ['%']) m) =
      (fun m => (lcs t).isPrefixOf m) :=
    funext fun m => likeMatch_lit (lcs t) hw m
  rw [h]

theorem searchMatch_eq_spec (t : String) (hw : wildFree (lcs t) = true) (b : Book) :
    searchMatch t b = specSearchMatch t b := by
  unfold searchMatch specSearchMatch
  rw [ilike_pctWrap_eq t hw, ilike_pctWrap_eq t hw]
  cases hd : b.description with
  | none => rfl
  | some d =>
    show (_ || _ || ilike (pctWrap t) d) = (_ || _ || containsCI t d)
    rw [ilike_pctWrap_eq t hw]

def cexBook1 : Book :=
  ⟨1, "a", "x", none, none, none, none, none, none, some true, 20, 20⟩

def cexBook2 : Book :=
  ⟨2, "b", "y", none, none, none, none, none, none, some false, 10, 10⟩

def cexDb : Db := ⟨[cexBook1, cexBook2], 3⟩

/-- C2: for every list request with validated page and limit, findAll
queries with offset (page-1)*limit, counts totalItems with the same
filter predicate and no limit/offset, and the envelope satisfies
totalPages = ceil(totalItems/itemsPerPage) (characterized by the two
inequalities totalItems ≤ totalPages*itemsPerPage <
totalItems + itemsPerPage); a page beyond totalPages yields an empty data
array, and any query that passes validation is answered 200, never an
error. -/
theorem findAll_pagination_envelope (db : Db) (o : ListOptions)
    (hp : 1 ≤ o.page) (hl : 1 ≤ o.limit) :
    (findAll db o).pagination.totalItems = (db.rows.filter (listPred o)).length ∧
    (findAll db o).pagination.itemsPerPage = o.limit ∧
    (findAll db o).pagination.currentPage = o.page ∧
    (findAll db o).data =
      ((sortRows (safeSortBy o.sortBy) (safeSortOrder o.sortOrder)
        (db.rows.filter (listPred o))).drop ((o.page - 1) * o.limit)).take o.limit ∧
    (findAll db o).pagination.totalItems ≤
      (findAll db o).pagination.totalPages * (findAll db o).pagination.itemsPerPage ∧
    (findAll db o).pagination.totalPages * (findAll db o).pagination.itemsPerPage <
      (findAll db o).pagination.totalItems + (findAll db o).pagination.itemsPerPage ∧
    ((findAll db o).pagination.totalPages < o.page → (findAll db o).data = []) ∧
    (∀ q : RawListQuery, listErrors q = [] → (listBooks db q).status = 200) := by
  refine ⟨rfl, rfl, rfl, rfl, ceilNat_ge _ _ hl, ceilNat_lt _ _ hl, ?_, ?_⟩
  · intro hlt
    have hlt2 : ceilNat (db.rows.filter (listPred o)).length o.limit < o.page := hlt
    have hlen : (sortRows (safeSortBy o.sortBy) (safeSortOrder o.sortOrder)
        (db.rows.filter (listPred o))).length = (db.rows.filter (listPred o)).length :=
      (perm_isort _ _).length_eq
    have h1 : ceilNat (db.rows.filter (listPred o)).length o.limit ≤ o.page - 1 := by omega
    have h2 : (db.rows.filter (listPred o)).length ≤ (o.page - 1) * o.limit :=
      le_trans (ceilNat_ge _ _ hl) (Nat.mul_le_mul_right _ h1)
    show ((sortRows (safeSortBy o.sortBy) (safeSortOrder o.sortOrder)
        (db.rows.filter (listPred o))).drop ((o.page - 1) * o.limit)).take o.limit = []
    rw [List.drop_eq_nil_of_le (by rw [hlen]; exact h2)]
    exact List.take_nil
  · intro q hq
    simp [listBooks, hq, ListResp.status]

/-- C2 witness: a concrete beyond-the-last-page request on a two-row store
yields an empty data array (and the envelope inequalities hold). -/
theorem findAll_pagination_envelope_witness :
    (findAll cexDb ⟨5, 2, "id", "ASC", none, none, none⟩).data = [] ∧
    (findAll cexDb ⟨5, 2, "id", "ASC", none, none, none⟩).pagination.totalItems ≤
      (findAll cexDb ⟨5, 2, "id", "ASC", none, none, none⟩).pagination.totalPages * 2 := by
  have h := findAll_pagination_envelope cexDb ⟨5, 2, "id", "ASC", none, none, none⟩
    (by decide) (by decide)
  exact ⟨h.2.2.2.2.2.2.1 (by decide), h.2.2.2.2.1⟩

/-- C5: an update or patch of an existing row with a body carrying none of
the nine recognized fields is a 200 no-op: the handler returns the
previously loaded row and the store state is unchanged (no write). -/
theorem empty_update_noop (db : Db) (now id : Nat) (b : Book)
    (hfind : findById db id = some b) :
    putBooks db now id emptyInput = (.updated (some b), db) ∧
    patchBooks db now id emptyInput = (.updated (some b), db) ∧
    MutResult.status (.updated (some b)) = 200 := by
  have h1 : putBooks db now id emptyInput = (.updated (some b), db) := by
    simp [putBooks, hfind, jTruthyStr, emptyInput, updStep, dbUpdate, setClause, entry]
  exact ⟨h1, by rw [← put_eq_patch_aux]; exact h1, rfl⟩

/-- C5 witness: the no-op update at id 1 of the concrete store. -/
theorem empty_update_noop_witness :
    putBooks cexDb 9 1 emptyInput = (.updated (some cexBook1), cexDb) ∧
    patchBooks cexDb 9 1 emptyInput = (.updated (some cexBook1), cexDb) := by
  have h := empty_update_noop cexDb 9 1 cexBook1 (by decide)
  exact ⟨h.1, h.2.1⟩

/-- C6: the PUT and PATCH handlers are behaviorally equivalent: for every
store state, clock, id and request body they produce the same outcome
(hence the same status code 200/404/409 and body) and the same store
state, both with partial-field update semantics. -/
theorem put_patch_equivalent (db : Db) (now id : Nat) (inp : BookInput) :
    putBooks db now id inp = patchBooks db now id inp :=
  put_eq_patch_aux db now id inp

/-- C8: the error middleware maps a unique-constraint violation (23505) to
409 carrying the store-provided detail, a foreign-key violation (23503)
to 400, a malformed value (22P02) to 400, and a refused connection to
503; every such response has success false and a timestamp. -/
theorem pg_error_mapping (msg : String) (detail : Option String)
    (production : Bool) (now : Nat) :
    errorHandler (.pg "23505" msg detail) production now =
      ⟨409, false, "Запись с такими данными уже существует", detail, now⟩ ∧
    errorHandler (.pg "23503" msg detail) production now =
      ⟨400, false, "Нарушение связи с другой таблицей", detail, now⟩ ∧
    errorHandler (.pg "22P02" msg detail) production now =
      ⟨400, false, "Неверный формат данных", none, now⟩ ∧
    errorHandler (.pg "ECONNREFUSED" msg detail) production now =
      ⟨503, false, "База данных недоступна", none, now⟩ := by
  refine ⟨rfl, ?_, ?_, ?_⟩ <;> simp [errorHandler]

/-- The schema invariant behind the uniqueness pre-check: non-null isbn
values identify a row uniquely. -/
def wfIsbn (db : Db) : Prop :=
  ∀ a ∈ db.rows, ∀ b ∈ db.rows, a.isbn.isSome = true → a.isbn = b.isbn → a = b

instance (db : Db) : Decidable (wfIsbn db) := by
  unfold wfIsbn
  infer_instance

/-- C1: when the body of a create or update supplies an isbn already held
by some other book, the handler answers 409 Conflict and the store state
is returned unchanged, so no insert or update runs and the pre-existing
row keeps its data. -/
theorem isbn_conflict_preserves_state (db : Db) (now : Nat) (s : String) (hs : s ≠ "")
    (b2 : Book) (hb2 : b2 ∈ db.rows) (hisbn : b2.isbn = some s) :
    (MutResult.conflict s).status = 409 ∧
    (∀ inp : BookInput, inp.isbn = JField.val s →
      postBooks db now inp = (.conflict s, db)) ∧
    (∀ id b inp, findById db id = some b → b.id ≠ b2.id → wfIsbn db →
      inp.isbn = JField.val s →
      putBooks db now id inp = (.conflict s, db) ∧
      patchBooks db now id inp = (.conflict s, db)) := by
  have hsome : (findByIsbn db s).isSome = true := by
    apply List.find?_isSome.mpr
    exact ⟨b2, hb2, by simp [hisbn]⟩
  obtain ⟨c, hc⟩ := Option.isSome_iff_exists.mp hsome
  refine ⟨rfl, ?_, ?_⟩
  · intro inp hinp
    simp [postBooks, hinp, jTruthyStr, hs, hc]
  · intro id b inp hfid hne hwf hinp
    have hbmem : b ∈ db.rows := List.mem_of_find?_eq_some hfid
    have hbisbn : some s ≠ b.isbn := by
      intro h
      have hbs : b.isbn.isSome = true := by rw [← h]; rfl
      have heq : b = b2 := hwf b hbmem b2 hb2 hbs (by rw [← h, hisbn])
      exact hne (congrArg Book.id heq)
    have h1 : putBooks db now id inp = (.conflict s, db) := by
      simp [putBooks, hfid, hinp, jTruthyStr, hs, hbisbn, hc]
    exact ⟨h1, by rw [← put_eq_patch_aux]; exact h1⟩

def isbnBook1 : Book :=
  ⟨1, "t1", "a1", some "1111111111", none, none, none, none, none, some true, 1, 1⟩

def isbnBook2 : Book :=
  ⟨2, "t2", "a2", some "2222222222", none, none, none, none, none, some true, 2, 2⟩

def isbnDb : Db := ⟨[isbnBook1, isbnBook2], 3⟩

/-- C1 witness: creating a third book with the first book's isbn, and
updating the second book to the first book's isbn, both conflict and
leave the concrete store unchanged. -/
theorem isbn_conflict_preserves_state_witness :
    postBooks isbnDb 7
      ⟨.val "x", .val "y", .val "1111111111", .undef, .undef, .undef, .undef, .undef, .undef⟩ =
      (.conflict "1111111111", isbnDb) ∧
    putBooks isbnDb 7 2
      ⟨.undef, .undef, .val "1111111111", .undef, .undef, .undef, .undef, .undef, .undef⟩ =
      (.conflict "1111111111", isbnDb) := by
  have h := isbn_conflict_preserves_state isbnDb 7 "1111111111" (by decide)
    isbnBook1 (by decide) (by decide)
  exact ⟨h.2.1 _ rfl,
    (h.2.2 2 isbnBook2 _ (by decide) (by decide) (by decide) rfl).1⟩

/-- C3 counterexample: the claim says the repository never silently
substitutes a default sort column for an unlisted sortBy, but Book.findAll
called with the unlisted value "hack" substitutes created_at and answers
normally: on the concrete store the page comes back ordered by created_at
(id 2 before id 1), identical to an explicit created_at request. -/
theorem sortBy_substitution_counterexample :
    ¬("hack" ∈ allowedSortFields) ∧
    safeSortBy "hack" = "created_at" ∧
    (findAll cexDb ⟨1, 10, "hack", "ASC", none, none, none⟩).data = [cexBook2, cexBook1] ∧
    findAll cexDb ⟨1, 10, "hack", "ASC", none, none, none⟩ =
      findAll cexDb ⟨1, 10, "created_at", "ASC", none, none, none⟩ := by
  refine ⟨by decide, by decide, by decide, by decide⟩

/-- C3 (amended): an unlisted sortBy is rejected by validation with 400
and never reaches the repository through the endpoint; the repository
itself, handed an unlisted value directly, substitutes created_at (it
does not interpolate the raw value); for whitelisted values the column is
used as requested and the returned page is sorted by that column in the
requested direction. -/
theorem sortBy_whitelist :
    (∀ (db : Db) (q : RawListQuery) (s : String), q.sortBy = some s →
      s ∉ allowedSortFields → (listBooks db q).status = 400) ∧
    (∀ s, s ∉ allowedSortFields → safeSortBy s = "created_at") ∧
    (∀ s, s ∈ allowedSortFields → safeSortBy s = s) ∧
    (∀ (db : Db) (o : ListOptions), o.sortBy ∈ allowedSortFields →
      (findAll db o).data.Pairwise
        (fun a b => rowLE o.sortBy (safeSortOrder o.sortOrder) a b = true)) := by
  refine ⟨?_, ?_, ?_, ?_⟩
  · intro db q s hq hnot
    have hC : optRule q.sortBy (fun s => decide (s ∈ allowedSortFields)) "sortBy" =
        ["sortBy"] := by
      rw [hq]
      simp [optRule, hnot]
    have hmem : "sortBy" ∈ listErrors q := by
      unfold listErrors
      rw [hC]
      simp
    cases hE : listErrors q with
    | nil => rw [hE] at hmem; simp at hmem
    | cons e es => simp [listBooks, hE, ListResp.status]
  · intro s h
    simp [safeSortBy, h]
  · intro s h
    simp [safeSortBy, h]
  · intro db o hmem
    have hsorted := pairwise_isort
      (rowLE (safeSortBy o.sortBy) (safeSortOrder o.sortOrder))
      (rowLE_total _ _) (rowLE_trans _ _)
      (db.rows.filter (listPred o))
    have hsub : List.Sublist ((findAll db o).data)
        (sortRows (safeSortBy o.sortBy) (safeSortOrder o.sortOrder)
          (db.rows.filter (listPred o))) := by
      show List.Sublist (((sortRows (safeSortBy o.sortBy) (safeSortOrder o.sortOrder)
        (db.rows.filter (listPred o))).drop ((o.page - 1) * o.limit)).take o.limit) _
      exact (List.take_sublist _ _).trans (List.drop_sublist _ _)
    have hp := hsorted.sublist hsub
    rw [safeSortBy, if_pos hmem] at hp
    exact hp

/-- C3 witness: the 400 at an unlisted value, the substitution at "hack",
identity on "title", and sortedness of a concrete id-ascending page. -/
theorem sortBy_whitelist_witness :
    (listBooks cexDb ⟨none, none, some "hack", none, none, none, none⟩).status = 400 ∧
    safeSortBy "hack" = "created_at" ∧
    safeSortBy "title" = "title" ∧
    (findAll cexDb ⟨1, 10, "id", "ASC", none, none, none⟩).data.Pairwise
      (fun a b => rowLE "id" (safeSortOrder "ASC") a b = true) := by
  have h := sortBy_whitelist
  exact ⟨h.1 cexDb ⟨none, none, some "hack", none, none, none, none⟩ "hack" rfl (by decide),
    h.2.1 "hack" (by decide),
    h.2.2.1 "title" (by decide),
    h.2.2.2 cexDb ⟨1, 10, "id", "ASC", none, none, none⟩ (by decide)⟩

def wildBook : Book :=
  ⟨1, "aXb", "someauthor", none, none, none, none, none, none, some true, 0, 0⟩

/-- C4 counterexample: the term "a%b" (length 3, so it passes validation)
is not a case-insensitive substring of any column of the concrete book,
yet search returns that book, because the repository interpolates the term
into a LIKE pattern where the percent acts as a wildcard. -/
theorem search_substring_counterexample :
    specSearchMatch "a%b" wildBook = false ∧
    searchBooks ⟨[wildBook], 2⟩ "a%b" = [wildBook] ∧
    searchEP ⟨[wildBook], 2⟩ (some "a%b") = .ok 1 [wildBook] := by
  refine ⟨by decide, by decide, by decide⟩

/-- C4 (amended): for search terms free of the LIKE metacharacters
percent, underscore and backslash, search returns exactly the books whose
title, author or description contains the term as a case-insensitive
substring, ordered by title ascending; a term matching no book yields a
200 response with count 0 and an empty data list, not an error. Terms
containing a metacharacter are instead interpreted as LIKE patterns. -/
theorem search_substring (t : String) (hw : wildFree (lcs t) = true) (db : Db) :
    List.Perm (searchBooks db t) (db.rows.filter (specSearchMatch t)) ∧
    (searchBooks db t).Pairwise (fun a b => strLE a.title b.title = true) ∧
    (∀ b, b ∈ searchBooks db t ↔ (b ∈ db.rows ∧ specSearchMatch t b = true)) ∧
    (jsTrim t = t → 2 ≤ t.length → t.length ≤ 100 →
      (∀ b ∈ db.rows, specSearchMatch t b = false) →
      searchEP db (some t) = .ok 0 []) := by
  have hfil : db.rows.filter (searchMatch t) = db.rows.filter (specSearchMatch t) :=
    List.filter_congr (fun b _ => searchMatch_eq_spec t hw b)
  have hperm : List.Perm (searchBooks db t) (db.rows.filter (specSearchMatch t)) := by
    unfold searchBooks sortRows
    rw [hfil]
    exact perm_isort _ _
  refine ⟨hperm, ?_, ?_, ?_⟩
  · have h := pairwise_isort (rowLE "title" "ASC") (rowLE_total _ _) (rowLE_trans _ _)
      (db.rows.filter (searchMatch t))
    have h2 : ∀ a b : Book, rowLE "title" "ASC" a b = true → strLE a.title b.title = true := by
      intro a b hab
      simpa [rowLE, colLE] using hab
    exact h.imp (fun hab => h2 _ _ hab)
  · intro b
    rw [hperm.mem_iff]
    simp [List.mem_filter]
  · intro htrim hlen1 hlen2 hnone
    have ht : ¬(t = "") := by
      intro h
      rw [h] at hlen1
      simp at hlen1
    have hErr : searchErrors (some t) = [] := by
      simp [searchErrors, htrim, ht, hlen1, hlen2]
    have hnil : db.rows.filter (specSearchMatch t) = [] := by
      apply List.filter_eq_nil_iff.mpr
      intro b hb
      simp [hnone b hb]
    have hemp : searchBooks db t = [] := by
      unfold searchBooks sortRows
      rw [hfil, hnil]
      rfl
    simp [searchEP, hErr, htrim, hemp]

/-- C4 witness: the wildcard-free term "ab" on an empty store answers 200
with count 0 and no rows. -/
theorem search_substring_witness :
    searchEP (⟨[], 1⟩ : Db) (some "ab") = .ok 0 [] := by
  have h := search_substring "ab" (by decide) ⟨[], 1⟩
  exact h.2.2.2 (by decide) (by decide) (by decide) (by intro b hb; simp at hb)

/-- A list query that only sets the inStock parameter. -/
def inStockQuery (v : String) : RawListQuery :=
  ⟨none, none, none, none, none, none, some v⟩

/-- C9 counterexample: the claim says no inStock value outside the
literals "true"/"false" passes validation, but "1" does (validator.js
isBoolean also accepts "1" and "0"); the handler then coerces it by
strict comparison with "true", so inStock=1 filters to out-of-stock books
and is answered 200. -/
theorem inStock_loose_validation_counterexample :
    ¬("1" = "true" ∨ "1" = "false") ∧
    listErrors (inStockQuery "1") = [] ∧
    (listBooks cexDb (inStockQuery "1")).status = 200 ∧
    listBooks cexDb (inStockQuery "1") =
      .ok (findAll cexDb ⟨1, 10, "created_at", "DESC", none, none, some false⟩) ∧
    (findAll cexDb ⟨1, 10, "created_at", "DESC", none, none, some false⟩).data =
      [cexBook2] := by
  refine ⟨by decide, by decide, by decide, by decide, by decide⟩

/-- C9 (amended): validation accepts exactly the inStock strings "true",
"false", "1" and "0" (validator.js isBoolean with default options); the
handler coerces the accepted value by strict string equality with "true",
so only "true" selects in-stock rows while "false", "1" and "0" all
select out-of-stock rows. -/
theorem inStock_coercion :
    (∀ s, listErrors (inStockQuery s) = [] ↔
      (s = "true" ∨ s = "false" ∨ s = "1" ∨ s = "0")) ∧
    (∀ (db : Db) (s : String), listErrors (inStockQuery s) = [] →
      listBooks db (inStockQuery s) =
        .ok (findAll db ⟨1, 10, "created_at", "DESC", none, none, some (s == "true")⟩)) := by
  constructor
  · intro s
    have h1 : listErrors (inStockQuery s) = (if isBooleanStr s then [] else ["inStock"]) := by
      simp [listErrors, inStockQuery, optRule]
    rw [h1]
    constructor
    · intro h2
      cases hb : isBooleanStr s with
      | true =>
        have := hb
        simp only [isBooleanStr, Bool.or_eq_true, beq_iff_eq] at this
        tauto
      | false => rw [hb] at h2; simp at h2
    · intro h2
      have hb : isBooleanStr s = true := by
        simp only [isBooleanStr, Bool.or_eq_true, beq_iff_eq]
        tauto
      simp [hb]
  · intro db s hE
    simp only [listBooks, hE]
    rfl

/-- C9 witness: the accepted value "0" coerces to an out-of-stock filter
on the concrete store. -/
theorem inStock_coercion_witness :
    listErrors (inStockQuery "0") = [] ∧
    listBooks cexDb (inStockQuery "0") =
      .ok (findAll cexDb ⟨1, 10, "created_at", "DESC", none, none, some false⟩) := by
  have h := inStock_coercion
  have h0 : listErrors (inStockQuery "0") = [] := (h.1 "0").mpr (by decide)
  exact ⟨h0, h.2 cexDb "0" h0⟩

/-- C7: an update writes only mutable columns explicitly present in the
input (the SET clause names are exactly among the nine mutable fields,
never id, created_at or updated_at, and a column appears iff the field is
not undefined); the updated row keeps its id and created_at, and absent
fields keep their old values; the insert of create names only the nine
mutable columns, so the created row's id and both timestamps are
server-assigned whatever the client sends. -/
theorem update_insert_frame :
    (∀ (b : Book) (inp : BookInput) (now : Nat),
      (applyUpd b inp now).id = b.id ∧ (applyUpd b inp now).created_at = b.created_at) ∧
    (∀ (inp : BookInput) (n : String) (v : SqlVal),
      (n, v) ∈ setClause inp → n ∈ mutableFields) ∧
    (∀ (inp : BookInput) (v : SqlVal),
      ("id", v) ∉ setClause inp ∧ ("created_at", v) ∉ setClause inp ∧
      ("updated_at", v) ∉ setClause inp) ∧
    (∀ inp : BookInput,
      ((∃ v, ("title", v) ∈ setClause inp) ↔ inp.title ≠ .undef) ∧
      ((∃ v, ("author", v) ∈ setClause inp) ↔ inp.author ≠ .undef) ∧
      ((∃ v, ("isbn", v) ∈ setClause inp) ↔ inp.isbn ≠ .undef) ∧
      ((∃ v, ("publication_year", v) ∈ setClause inp) ↔ inp.publication_year ≠ .undef) ∧
      ((∃ v, ("genre", v) ∈ setClause inp) ↔ inp.genre ≠ .undef) ∧
      ((∃ v, ("pages", v) ∈ setClause inp) ↔ inp.pages ≠ .undef) ∧
      ((∃ v, ("description", v) ∈ setClause inp) ↔ inp.description ≠ .undef) ∧
      ((∃ v, ("price", v) ∈ setClause inp) ↔ inp.price ≠ .undef) ∧
      ((∃ v, ("in_stock", v) ∈ setClause inp) ↔ inp.in_stock ≠ .undef)) ∧
    (∀ (b : Book) (inp : BookInput) (now : Nat),
      (inp.title = .undef → (applyUpd b inp now).title = b.title) ∧
      (inp.author = .undef → (applyUpd b inp now).author = b.author) ∧
      (inp.isbn = .undef → (applyUpd b inp now).isbn = b.isbn) ∧
      (inp.publication_year = .undef →
        (applyUpd b inp now).publication_year = b.publication_year) ∧
      (inp.genre = .undef → (applyUpd b inp now).genre = b.genre) ∧
      (inp.pages = .undef → (applyUpd b inp now).pages = b.pages) ∧
      (inp.description = .undef → (applyUpd b inp now).description = b.description) ∧
      (inp.price = .undef → (applyUpd b inp now).price = b.price) ∧
      (inp.in_stock = .undef → (applyUpd b inp now).in_stock = b.in_stock)) ∧
    (∀ (db : Db) (now : Nat) (t a : String) (inp : BookInput),
      (insertRow db now t a inp).id = db.seq ∧
      (insertRow db now t a inp).created_at = now ∧
      (insertRow db now t a inp).updated_at = now) := by
  refine ⟨fun b inp now => ⟨rfl, rfl⟩, setClause_names, ?_, ?_, ?_,
    fun db now t a inp => ⟨rfl, rfl, rfl⟩⟩
  · intro inp v
    refine ⟨fun h => ?_, fun h => ?_, fun h => ?_⟩ <;>
      exact absurd (setClause_names inp _ v h) (by decide)
  · intro inp
    refine ⟨?_, ?_, ?_, ?_, ?_, ?_, ?_, ?_, ?_⟩
    · cases h : inp.title <;> simp [setClause, List.mem_append, mem_entry_iff, h]
    · cases h : inp.author <;> simp [setClause, List.mem_append, mem_entry_iff, h]
    · cases h : inp.isbn <;> simp [setClause, List.mem_append, mem_entry_iff, h]
    · cases h : inp.publication_year <;>
        simp [setClause, List.mem_append, mem_entry_iff, h]
    · cases h : inp.genre <;> simp [setClause, List.mem_append, mem_entry_iff, h]
    · cases h : inp.pages <;> simp [setClause, List.mem_append, mem_entry_iff, h]
    · cases h : inp.description <;> simp [setClause, List.mem_append, mem_entry_iff, h]
    · cases h : inp.price <;> simp [setClause, List.mem_append, mem_entry_iff, h]
    · cases h : inp.in_stock <;> simp [setClause, List.mem_append, mem_entry_iff, h]
  · intro b inp now
    refine ⟨?_, ?_, ?_, ?_, ?_, ?_, ?_, ?_, ?_⟩ <;> intro h <;> simp [applyUpd, jApply, h]

def frameBook : Book :=
  ⟨4, "ft", "fa", none, none, some "g", none, none, none, some true, 3, 3⟩

/-- C7 witness: concrete frame facts for an update with an empty body and
an insert with an empty body. -/
theorem update_insert_frame_witness :
    (applyUpd frameBook emptyInput 99).id = frameBook.id ∧
    (applyUpd frameBook emptyInput 99).created_at = frameBook.created_at ∧
    (applyUpd frameBook emptyInput 99).genre = frameBook.genre ∧
    ("id", SqlVal.i 7) ∉ setClause emptyInput ∧
    (insertRow cexDb 99 "t" "a" emptyInput).id = cexDb.seq := by
  have h := update_insert_frame
  exact ⟨(h.1 frameBook emptyInput 99).1, (h.1 frameBook emptyInput 99).2,
    (h.2.2.2.2.1 frameBook emptyInput 99).2.2.2.2.1 rfl,
    (h.2.2.1 emptyInput (SqlVal.i 7)).1,
    (h.2.2.2.2.2 cexDb 99 "t" "a" emptyInput).1⟩

/-- C10: an update field explicitly set to null is treated as present
(the test is value not-equal-to undefined): the column is named in the
SET clause with the SQL NULL parameter, and on the nullable columns the
resulting row has the column cleared; an absent field is not named in the
SET clause and keeps its old value. -/
theorem null_clears_column (inp : BookInput) (b : Book) (now : Nat) :
    (inp.isbn = .null →
      ("isbn", SqlVal.nullV) ∈ setClause inp ∧ (applyUpd b inp now).isbn = none) ∧
    (inp.publication_year = .null →
      ("publication_year", SqlVal.nullV) ∈ setClause inp ∧
      (applyUpd b inp now).publication_year = none) ∧
    (inp.genre = .null →
      ("genre", SqlVal.nullV) ∈ setClause inp ∧ (applyUpd b inp now).genre = none) ∧
    (inp.pages = .null →
      ("pages", SqlVal.nullV) ∈ setClause inp ∧ (applyUpd b inp now).pages = none) ∧
    (inp.description = .null →
      ("description", SqlVal.nullV) ∈ setClause inp ∧
      (applyUpd b inp now).description = none) ∧
    (inp.price = .null →
      ("price", SqlVal.nullV) ∈ setClause inp ∧ (applyUpd b inp now).price = none) ∧
    (inp.in_stock = .null →
      ("in_stock", SqlVal.nullV) ∈ setClause inp ∧ (applyUpd b inp now).in_stock = none) ∧
    (inp.title = .null → ("title", SqlVal.nullV) ∈ setClause inp) ∧
    (inp.author = .null → ("author", SqlVal.nullV) ∈ setClause inp) ∧
    (inp.genre = .undef →
      (∀ v, ("genre", v) ∉ setClause inp) ∧ (applyUpd b inp now).genre = b.genre) := by
  refine ⟨?_, ?_, ?_, ?_, ?_, ?_, ?_, ?_, ?_, ?_⟩ <;> intro h
  · exact ⟨by simp [setClause, List.mem_append, mem_entry_iff, h],
      by simp [applyUpd, jApply, h]⟩
  · exact ⟨by simp [setClause, List.mem_append, mem_entry_iff, h],
      by simp [applyUpd, jApply, h]⟩
  · exact ⟨by simp [setClause, List.mem_append, mem_entry_iff, h],
      by simp [applyUpd, jApply, h]⟩
  · exact ⟨by simp [setClause, List.mem_append, mem_entry_iff, h],
      by simp [applyUpd, jApply, h]⟩
  · exact ⟨by simp [setClause, List.mem_append, mem_entry_iff, h],
      by simp [applyUpd, jApply, h]⟩
  · exact ⟨by simp [setClause, List.mem_append, mem_entry_iff, h],
      by simp [applyUpd, jApply, h]⟩
  · exact ⟨by simp [setClause, List.mem_append, mem_entry_iff, h],
      by simp [applyUpd, jApply, h]⟩
  · simp [setClause, List.mem_append, mem_entry_iff, h]
  · simp [setClause, List.mem_append, mem_entry_iff, h]
  · exact ⟨fun v => by simp [setClause, List.mem_append, mem_entry_iff, h],
      by simp [applyUpd, jApply, h]⟩

def nullGenreInput : BookInput :=
  ⟨.undef, .undef, .undef, .undef, .null, .undef, .undef, .undef, .undef⟩

/-- C10 witness: an explicit null genre appears in the SET clause as NULL
and clears the stored genre of the concrete row. -/
theorem null_clears_column_witness :
    ("genre", SqlVal.nullV) ∈ setClause nullGenreInput ∧
    (applyUpd frameBook nullGenreInput 5).genre = none := by
  have h := null_clears_column nullGenreInput frameBook 5
  exact h.2.2.1 rfl
